import Mathlib

/-!
# Verification of the configuration transformer in `src/_black.py`

This file embeds the `VeryComplicatedClass` configuration transformer
(`src/_black.py`, lines 217–316) in Lean and proves properties of it.

Modelling choices:
* Python's heterogeneous values are a closed variant type `Variant`
  (text, integer, float, list, dict, other).  Python floats only ever get
  multiplied by `2` or passed through in this program, so they are carried
  as exact rationals.
* Python `dict`s are association lists in insertion order with unique keys;
  `dict` assignment (`d[k] = v`) is `dictInsert`, which overwrites an
  existing binding in place and otherwise appends.
* Strings are handled at the character-list level; the program only ever
  feeds ASCII text to `lower`/`upper`/`capitalize`.
-/

set_option autoImplicit false

/-- The runtime shapes the dispatch in `process_config` distinguishes:
strings, ints, lists, dicts, and anything else (floats are "anything else"
at top level but are numeric inside the sequence branch; other opaque
values such as Python sets are `vOther` with a descriptive tag). -/
inductive Variant : Type where
  | vStr : String → Variant
  | vInt : Int → Variant
  | vFloat : ℚ → Variant
  | vList : List Variant → Variant
  | vDict : List (String × Variant) → Variant
  | vOther : String → Variant
deriving Repr

/-- Python `s.lower()` restricted to ASCII, as a character map. -/
def strLower (s : String) : String :=
  String.mk (s.data.map Char.toLower)

/-- Python `s.upper()` restricted to ASCII, as a character map. -/
def strUpper (s : String) : String :=
  String.mk (s.data.map Char.toUpper)

/-- Python `s.capitalize()`: first character upper-cased, all remaining
characters lower-cased. -/
def strCapitalize (s : String) : String :=
  match s.data with
  | [] => ""
  | c :: cs => String.mk (c.toUpper :: cs.map Char.toLower)

/-- True when the first list is an initial segment of the second. -/
def leadsWith : List Char → List Char → Bool
  | [], _ => true
  | _ :: _, [] => false
  | p :: ps, c :: cs => p == c && leadsWith ps cs

/-- True when the first list occurs contiguously inside the second. -/
def occursIn (pat : List Char) : List Char → Bool
  | [] => pat.isEmpty
  | c :: cs => leadsWith pat (c :: cs) || occursIn pat cs

/-- Python `pat in s`: substring containment, at the character-list level. -/
def strContains (s pat : String) : Bool :=
  occursIn pat.data s.data

/-- The numeric rule `VeryComplicatedClass._internal_helper`
(`src/_black.py` lines 230–250), dispatching on the operation-selector
string. -/
def internal_helper (key : String) (value : Int) : Int :=
  if key = "multiply" then
    if value > 10 then value * 2 else value * 3
  else if key = "add" then
    if value < 0 then
      if (value.natAbs : ℕ) > 100 then value + 200 else value + 50
    else value + 10
  else
    value

/-- The text rule `VeryComplicatedClass._another_internal_helper`
(`src/_black.py` lines 252–261). -/
def another_internal_helper (text : String) : String :=
  if strContains (strLower text) "error" then strUpper text
  else if strContains (strLower text) "success" then strCapitalize text
  else String.mk text.data.reverse

/-- The guard `isinstance(elem, (int, float))` of the long-sequence
branch (`src/_black.py` line 282). -/
def Variant.isNumber : Variant → Bool
  | .vInt _ => true
  | .vFloat _ => true
  | _ => false

/-- The doubling `elem * 2` of the long-sequence branch (`src/_black.py`
line 280); only ever applied to values passing `isNumber`. -/
def Variant.timesTwo : Variant → Variant
  | .vInt n => .vInt (n * 2)
  | .vFloat q => .vFloat (q * 2)
  | v => v

/-- One element of the short-sequence branch (`src/_black.py` lines
287–293): ints go through the numeric rule with selector `"multiply"`,
strings through the text rule, everything else is unchanged. -/
def shortListElem : Variant → Variant
  | .vInt n => .vInt (internal_helper "multiply" n)
  | .vStr s => .vStr (another_internal_helper s)
  | v => v

/-- One value of the nested-dict branch (`src/_black.py` lines 298–306):
ints go through the numeric rule with selector `"add"`, strings through
the text rule, everything else is unchanged. -/
def dictValueRule : Variant → Variant
  | .vInt n => .vInt (internal_helper "add" n)
  | .vStr s => .vStr (another_internal_helper s)
  | v => v

/-- The per-entry dispatch of `process_config` (`src/_black.py` lines
269–310), extracted as a function of the entry's key and value.  The
`match value` arms: `str`, `int`, `list` (split on `len > 5`), `dict`,
and the catch-all. -/
def transformEntry (key : String) : Variant → Variant
  | .vStr s => .vStr (another_internal_helper s)
  | .vInt n => .vInt (internal_helper key n)
  | .vList xs =>
      if xs.length > 5 then
        .vList ((xs.filter Variant.isNumber).map Variant.timesTwo)
      else
        .vList (xs.map shortListElem)
  | .vDict m => .vDict (m.map fun p => (p.1, dictValueRule p.2))
  | v => v

/-- Python `d[k] = v` on a dict represented as an insertion-ordered
association list: overwrite the binding in place if the key is present,
otherwise append a new binding. -/
def dictInsert (m : List (String × Variant)) (k : String) (v : Variant) :
    List (String × Variant) :=
  if (m.map Prod.fst).contains k then
    m.map fun p => if p.1 = k then (k, v) else p
  else
    m ++ [(k, v)]

/-- The state of a `VeryComplicatedClass` instance (`src/_black.py` lines
223–228): the configuration passed to `__init__` and the
`internal_state` accumulator. -/
structure VeryComplicatedClass : Type where
  config : List (String × Variant)
  internal_state : List (String × Variant)
deriving Repr

/-- The constructor `VeryComplicatedClass.__init__` (`src/_black.py`
lines 223–228): stores the config and creates the accumulator empty. -/
def VeryComplicatedClass.init (config : List (String × Variant)) :
    VeryComplicatedClass :=
  { config := config, internal_state := [] }

/-- The loop of `process_config` (`src/_black.py` lines 268–310): fold
over the configuration entries, writing `transformEntry key value` into
the accumulator under the same key. -/
def insertAll (st : List (String × Variant)) (cfg : List (String × Variant)) :
    List (String × Variant) :=
  cfg.foldl (fun acc p => dictInsert acc p.1 (transformEntry p.1 p.2)) st

/-- The method `VeryComplicatedClass.process_config` (`src/_black.py`
lines 263–310): runs the loop on `self.config`, mutating only
`self.internal_state` (which it does not clear first). -/
def VeryComplicatedClass.process_config (self : VeryComplicatedClass) :
    VeryComplicatedClass :=
  { self with internal_state := insertAll self.internal_state self.config }

/-- The `complex_config` built in `main` (`src/_black.py` lines 475–483),
used below as a concrete test input. -/
def complex_config : List (String × Variant) :=
  [ ("multiply", .vInt 12),
    ("add", .vInt (-20)),
    ("textData", .vStr "This might be an error message"),
    ("listData", .vList [.vInt 5, .vStr "hello", .vFloat (314/100), .vInt (-2), .vInt 10]),
    ("anotherList", .vList [.vInt 1, .vInt 2, .vInt 3, .vInt 4, .vInt 5, .vInt 6, .vInt 7]),
    ("nestedDict", .vDict [("innerInt", .vInt 5), ("innerText", .vStr "SUCCESS CASE"),
                           ("ignored", .vFloat (31415/10000))]),
    ("unhandledType", .vOther "set 1 2 3") ]

/-- The entry-wise action of the loop: key kept, value transformed. -/
def transformPair (p : String × Variant) : String × Variant :=
  (p.1, transformEntry p.1 p.2)

example : another_internal_helper "this has an ERROR" = "THIS HAS AN ERROR" := by decide
example : another_internal_helper "great success" = "Great success" := by decide
example : another_internal_helper "hello" = "olleh" := by decide
example : internal_helper "add" (-150) = 50 := by decide

example :
    (VeryComplicatedClass.process_config (.init complex_config)).internal_state =
    [ ("multiply", .vInt 24),
      ("add", .vInt 30),
      ("textData", .vStr "THIS MIGHT BE AN ERROR MESSAGE"),
      ("listData", .vList [.vInt 15, .vStr "olleh", .vFloat (314/100), .vInt (-6), .vInt 30]),
      ("anotherList", .vList [.vInt 2, .vInt 4, .vInt 6, .vInt 8, .vInt 10, .vInt 12, .vInt 14]),
      ("nestedDict", .vDict [("innerInt", .vInt 15), ("innerText", .vStr "Success case"),
                             ("ignored", .vFloat (31415/10000))]),
      ("unhandledType", .vOther "set 1 2 3") ] := by
  rfl

theorem dictInsert_of_not_mem (st : List (String × Variant)) (k : String)
    (v : Variant) (h : k ∉ st.map Prod.fst) :
    dictInsert st k v = st ++ [(k, v)] := by
  have hc : (st.map Prod.fst).contains k = false := by
    simpa using h
  unfold dictInsert
  rw [hc]
  simp

theorem insertAll_nil (st : List (String × Variant)) : insertAll st [] = st := rfl

theorem insertAll_cons (st : List (String × Variant)) (p : String × Variant)
    (cfg : List (String × Variant)) :
    insertAll st (p :: cfg) = insertAll (dictInsert st p.1 (transformEntry p.1 p.2)) cfg := rfl

/-- When all the keys of `cfg` are distinct and none of them is already in
the accumulator, the loop just appends the transformed entries in order. -/
theorem insertAll_eq_append (cfg : List (String × Variant)) :
    ∀ st : List (String × Variant), (cfg.map Prod.fst).Nodup →
    (∀ k ∈ cfg.map Prod.fst, k ∉ st.map Prod.fst) →
    insertAll st cfg = st ++ cfg.map transformPair := by
  induction cfg with
  | nil => intro st _ _; simp [insertAll_nil]
  | cons p cfg ih =>
      intro st hnd hdisj
      obtain ⟨k, v⟩ := p
      have hk : k ∉ st.map Prod.fst := hdisj k (by simp)
      rw [insertAll_cons, dictInsert_of_not_mem st k _ hk]
      have hnd' : (cfg.map Prod.fst).Nodup := (List.nodup_cons.mp (by simpa using hnd)).2
      have hknot : k ∉ cfg.map Prod.fst := (List.nodup_cons.mp (by simpa using hnd)).1
      rw [ih (st ++ [(k, transformEntry k v)]) hnd']
      · simp [transformPair]
      · intro k' hk'
        simp only [List.map_append, List.mem_append] at *
        rintro (h | h)
        · exact hdisj k' (by simp [hk']) h
        · simp at h
          exact hknot (h ▸ hk')

/-- On a freshly constructed transformer with distinct config keys, the
accumulator after `process_config` is exactly the entry-wise transform of
the config, in order. -/
theorem state_eq_map (cfg : List (String × Variant))
    (hnd : (cfg.map Prod.fst).Nodup) :
    (VeryComplicatedClass.process_config (.init cfg)).internal_state =
      cfg.map transformPair := by
  have := insertAll_eq_append cfg [] hnd (by simp)
  simpa [VeryComplicatedClass.process_config, VeryComplicatedClass.init] using this

theorem lookup_eq_none_of_not_mem (l : List (String × Variant)) (k : String)
    (h : k ∉ l.map Prod.fst) : l.lookup k = none := by
  induction l with
  | nil => rfl
  | cons p l ih =>
      simp only [List.map_cons, List.mem_cons, not_or] at h
      have : (k == p.1) = false := by
        simpa using h.1
      simp [List.lookup, this, ih h.2]

theorem lookup_eq_some_of_mem (l : List (String × Variant)) (k : String)
    (v : Variant) (hnd : (l.map Prod.fst).Nodup) (h : (k, v) ∈ l) :
    l.lookup k = some v := by
  induction l with
  | nil => simp at h
  | cons p l ih =>
      simp only [List.map_cons, List.nodup_cons] at hnd
      rcases List.mem_cons.mp h with h1 | h1
      · simp [List.lookup, ← h1]
      · have hkp : (k == p.1) = false := by
          have : k ∈ l.map Prod.fst := by
            exact List.mem_map.mpr ⟨(k, v), h1, rfl⟩
          simp only [beq_eq_false_iff_ne, ne_eq]
          intro he
          exact hnd.1 (he ▸ this)
        simp [List.lookup, hkp, ih hnd.2 h1]

theorem mem_of_lookup_eq_some (l : List (String × Variant)) (k : String)
    (v : Variant) (h : l.lookup k = some v) : (k, v) ∈ l := by
  induction l with
  | nil => simp [List.lookup] at h
  | cons p l ih =>
      by_cases hk : k = p.1
      · simp [List.lookup, hk] at h
        simp [← h, hk]
      · have : (k == p.1) = false := by simpa using hk
        simp [List.lookup, this] at h
        exact List.mem_cons_of_mem _ (ih h)

theorem not_mem_of_lookup_eq_none (l : List (String × Variant)) (k : String)
    (h : l.lookup k = none) : k ∉ l.map Prod.fst := by
  induction l with
  | nil => simp
  | cons p l ih =>
      by_cases hk : k = p.1
      · simp [List.lookup, hk] at h
      · have hb : (k == p.1) = false := by simpa using hk
        simp only [List.lookup, hb] at h
        simp only [List.map_cons, List.mem_cons, not_or]
        exact ⟨hk, ih h⟩

/-- Lookup in an association list with distinct keys is invariant under
permutation of the entries. -/
theorem perm_lookup (l l' : List (String × Variant)) (hp : l.Perm l')
    (hnd : (l.map Prod.fst).Nodup) (k : String) :
    l.lookup k = l'.lookup k := by
  have hnd' : (l'.map Prod.fst).Nodup := (hp.map Prod.fst).nodup_iff.mp hnd
  cases he : l.lookup k with
  | none =>
      have h1 : k ∉ l.map Prod.fst := not_mem_of_lookup_eq_none l k he
      have h2 : k ∉ l'.map Prod.fst := fun hmem => h1 ((hp.map Prod.fst).mem_iff.mpr hmem)
      rw [lookup_eq_none_of_not_mem l' k h2]
  | some v =>
      have hmem : (k, v) ∈ l := mem_of_lookup_eq_some l k v he
      rw [lookup_eq_some_of_mem l' k v hnd' (hp.mem_iff.mp hmem)]

theorem eq_of_mem_of_fst_eq (st : List (String × Variant)) (k : String)
    (v : Variant) (hnd : (st.map Prod.fst).Nodup) (hkv : (k, v) ∈ st) :
    ∀ p ∈ st, p.1 = k → p = (k, v) := by
  induction st with
  | nil => simp
  | cons q st ih =>
      simp only [List.map_cons, List.nodup_cons] at hnd
      intro p hp hpk
      rcases List.mem_cons.mp hkv with h1 | h1 <;>
        rcases List.mem_cons.mp hp with h2 | h2
      · rw [h2, ← h1]
      · exfalso
        apply hnd.1
        rw [← h1]
        simp only
        rw [← hpk]
        exact List.mem_map.mpr ⟨p, h2, rfl⟩
      · exfalso
        apply hnd.1
        have hq : q.1 = k := by rw [← h2, hpk]
        rw [hq]
        exact List.mem_map.mpr ⟨(k, v), h1, rfl⟩
      · exact ih hnd.2 h1 p h2 hpk

/-- Writing a binding that is already present (same key, same value) into
an accumulator with distinct keys leaves it unchanged. -/
theorem dictInsert_of_mem (st : List (String × Variant)) (k : String)
    (v : Variant) (hnd : (st.map Prod.fst).Nodup) (hkv : (k, v) ∈ st) :
    dictInsert st k v = st := by
  have hc : (st.map Prod.fst).contains k = true := by
    simp only [List.contains_iff_exists_mem_beq]
    exact ⟨k, List.mem_map.mpr ⟨(k, v), hkv, rfl⟩, by simp⟩
  unfold dictInsert
  rw [hc]
  simp only [if_true]
  have hcong : ∀ p ∈ st, (if p.1 = k then (k, v) else p) = p := by
    intro p hp
    by_cases hpk : p.1 = k
    · rw [if_pos hpk, eq_of_mem_of_fst_eq st k v hnd hkv p hp hpk]
    · rw [if_neg hpk]
  calc st.map (fun p => if p.1 = k then (k, v) else p)
      = st.map id := List.map_congr_left hcong
    _ = st := List.map_id st

/-- Re-running the loop over a config whose transformed entries are all
already in the accumulator changes nothing. -/
theorem insertAll_of_mem (cfg : List (String × Variant)) :
    ∀ st : List (String × Variant), (st.map Prod.fst).Nodup →
    (∀ p ∈ cfg, transformPair p ∈ st) →
    insertAll st cfg = st := by
  induction cfg with
  | nil => intro st _ _; rfl
  | cons p cfg ih =>
      intro st hnd hmem
      rw [insertAll_cons,
          dictInsert_of_mem st p.1 (transformEntry p.1 p.2) hnd (hmem p (by simp))]
      exact ih st hnd fun q hq => hmem q (List.mem_cons_of_mem _ hq)

/-- Keys are preserved entry-wise, so the transformed config has the same
key list as the config. -/
theorem map_fst_map_transformPair (cfg : List (String × Variant)) :
    (cfg.map transformPair).map Prod.fst = cfg.map Prod.fst := by
  rw [List.map_map]
  rfl

/-- C1: for every input configuration with distinct keys (a mapping),
`process_config` produces an accumulator whose key list is exactly the
input's key list — every input key appears exactly once, none added or
dropped. -/
theorem claim1_key_set_preserved (cfg : List (String × Variant))
    (hnd : (cfg.map Prod.fst).Nodup) :
    ((VeryComplicatedClass.init cfg).process_config).internal_state.map Prod.fst
        = cfg.map Prod.fst
    ∧ (((VeryComplicatedClass.init cfg).process_config).internal_state.map Prod.fst).Nodup := by
  rw [state_eq_map cfg hnd, map_fst_map_transformPair]
  exact ⟨rfl, hnd⟩

theorem claim1_key_set_preserved_witness :
    ((VeryComplicatedClass.init []).process_config).internal_state.map Prod.fst
        = ([] : List String)
    ∧ ((VeryComplicatedClass.init [("a", .vStr "x"), ("b", .vInt 3)]).process_config).internal_state.map Prod.fst
        = ["a", "b"] :=
  ⟨(claim1_key_set_preserved [] (by decide)).1,
   (claim1_key_set_preserved [("a", .vStr "x"), ("b", .vInt 3)] (by decide)).1⟩

/-- C2: the text rule upper-cases strings whose lowercase form contains
"error", capitalizes (first char upper, rest lower) those containing
"success", and otherwise reverses the string; with the three concrete
examples from the spec. -/
theorem claim2_text_rule (s : String) :
    (strContains (strLower s) "error" = true →
      another_internal_helper s = strUpper s)
    ∧ (strContains (strLower s) "error" = false →
        strContains (strLower s) "success" = true →
        another_internal_helper s = strCapitalize s)
    ∧ (strContains (strLower s) "error" = false →
        strContains (strLower s) "success" = false →
        another_internal_helper s = String.mk s.data.reverse)
    ∧ another_internal_helper "this has an ERROR" = "THIS HAS AN ERROR"
    ∧ another_internal_helper "great success" = "Great success"
    ∧ another_internal_helper "hello" = "olleh" := by
  refine ⟨?_, ?_, ?_, by decide, by decide, by decide⟩
  · intro h
    simp [another_internal_helper, h]
  · intro h1 h2
    simp [another_internal_helper, h1, h2]
  · intro h1 h2
    simp [another_internal_helper, h1, h2]

theorem claim2_text_rule_witness :
    another_internal_helper "boom" = String.mk "boom".data.reverse
    ∧ another_internal_helper "an error" = strUpper "an error"
    ∧ another_internal_helper "my success" = strCapitalize "my success" :=
  ⟨(claim2_text_rule "boom").2.2.1 (by decide) (by decide),
   (claim2_text_rule "an error").1 (by decide),
   (claim2_text_rule "my success").2.1 (by decide) (by decide)⟩

/-- C3: the numeric rule doubles when selector is "multiply" and the
operand exceeds 10, otherwise triples; with selector "add" it adds 200,
50 or 10 depending on sign and magnitude; any other selector returns the
operand unchanged; with the six concrete examples from the spec. -/
theorem claim3_numeric_rule :
    (∀ v : Int, v > 10 → internal_helper "multiply" v = v * 2)
    ∧ (∀ v : Int, ¬ v > 10 → internal_helper "multiply" v = v * 3)
    ∧ (∀ v : Int, v < 0 → (v.natAbs : ℕ) > 100 → internal_helper "add" v = v + 200)
    ∧ (∀ v : Int, v < 0 → ¬ (v.natAbs : ℕ) > 100 → internal_helper "add" v = v + 50)
    ∧ (∀ v : Int, ¬ v < 0 → internal_helper "add" v = v + 10)
    ∧ (∀ (k : String) (v : Int), k ≠ "multiply" → k ≠ "add" → internal_helper k v = v)
    ∧ internal_helper "multiply" 12 = 24 ∧ internal_helper "multiply" 5 = 15
    ∧ internal_helper "add" (-150) = 50 ∧ internal_helper "add" (-20) = 30
    ∧ internal_helper "add" 5 = 15 ∧ internal_helper "other" 7 = 7 := by
  refine ⟨?_, ?_, ?_, ?_, ?_, ?_,
    by decide, by decide, by decide, by decide, by decide, by decide⟩
  · intro v h
    unfold internal_helper
    rw [if_pos rfl, if_pos h]
  · intro v h
    unfold internal_helper
    rw [if_pos rfl, if_neg h]
  · intro v h1 h2
    unfold internal_helper
    rw [if_neg (by decide), if_pos rfl, if_pos h1, if_pos h2]
  · intro v h1 h2
    unfold internal_helper
    rw [if_neg (by decide), if_pos rfl, if_pos h1, if_neg h2]
  · intro v h
    unfold internal_helper
    rw [if_neg (by decide), if_pos rfl, if_neg h]
  · intro k v h1 h2
    unfold internal_helper
    rw [if_neg h1, if_neg h2]

theorem claim3_numeric_rule_witness :
    internal_helper "multiply" 12 = 12 * 2
    ∧ internal_helper "add" (-150) = -150 + 200
    ∧ internal_helper "add" (-20) = -20 + 50
    ∧ internal_helper "add" 5 = 5 + 10
    ∧ internal_helper "other" 7 = 7 :=
  ⟨claim3_numeric_rule.1 12 (by decide),
   claim3_numeric_rule.2.2.1 (-150) (by decide) (by decide),
   claim3_numeric_rule.2.2.2.1 (-20) (by decide) (by decide),
   claim3_numeric_rule.2.2.2.2.1 5 (by decide),
   claim3_numeric_rule.2.2.2.2.2.1 "other" 7 (by decide) (by decide)⟩

/-- C4: a sequence value of length greater than 5 is replaced by the
doubled numeric elements (non-numeric elements dropped); one of length at
most 5 is mapped element-wise, with the same length: ints through the
numeric rule with selector "multiply", strings through the text rule,
everything else unchanged; with the two concrete sequences from the
spec. -/
theorem claim4_sequence_rule :
    (∀ (k : String) (xs : List Variant), xs.length > 5 →
      transformEntry k (.vList xs)
        = .vList ((xs.filter Variant.isNumber).map Variant.timesTwo))
    ∧ (∀ (k : String) (xs : List Variant), ¬ xs.length > 5 →
        transformEntry k (.vList xs) = .vList (xs.map shortListElem)
          ∧ (xs.map shortListElem).length = xs.length)
    ∧ (∀ n : Int, shortListElem (.vInt n) = .vInt (internal_helper "multiply" n))
    ∧ (∀ s : String, shortListElem (.vStr s) = .vStr (another_internal_helper s))
    ∧ (∀ q : ℚ, shortListElem (.vFloat q) = .vFloat q)
    ∧ (∀ n : Int, Variant.timesTwo (.vInt n) = .vInt (n * 2))
    ∧ (∀ q : ℚ, Variant.timesTwo (.vFloat q) = .vFloat (q * 2))
    ∧ transformEntry "anotherList"
        (.vList [.vInt 1, .vInt 2, .vInt 3, .vInt 4, .vInt 5, .vInt 6, .vInt 7])
      = .vList [.vInt 2, .vInt 4, .vInt 6, .vInt 8, .vInt 10, .vInt 12, .vInt 14]
    ∧ transformEntry "listData"
        (.vList [.vInt 5, .vStr "hello", .vFloat (314/100), .vInt (-2), .vInt 10])
      = .vList [.vInt 15, .vStr "olleh", .vFloat (314/100), .vInt (-6), .vInt 30] := by
  refine ⟨?_, ?_, fun n => rfl, fun s => rfl, fun q => rfl, fun n => rfl, fun q => rfl,
    by rfl, by rfl⟩
  · intro k xs h
    show (if xs.length > 5 then _ else _) = _
    rw [if_pos h]
  · intro k xs h
    constructor
    · show (if xs.length > 5 then _ else _) = _
      rw [if_neg h]
    · exact List.length_map xs shortListElem

theorem claim4_sequence_rule_witness :
    transformEntry "k"
        (.vList [.vInt 1, .vStr "ab", .vOther "s", .vInt 2, .vFloat 1, .vInt 3])
      = .vList [.vInt 2, .vInt 4, .vFloat 2, .vInt 6]
    ∧ transformEntry "k" (.vList [.vInt 11]) = .vList [.vInt 22] := by
  constructor
  · rw [claim4_sequence_rule.1 "k" _ (by decide)]
    norm_num [List.filter, Variant.isNumber, Variant.timesTwo]
  · rw [(claim4_sequence_rule.2.1 "k" [.vInt 11] (by decide)).1]
    rfl

/-- C5: a mapping value is replaced by a mapping with the same keys, where
int values go through the numeric rule with selector "add", string values
through the text rule, and everything else is unchanged; with the concrete
nested dict from the spec. -/
theorem claim5_mapping_rule :
    (∀ (k : String) (m : List (String × Variant)),
      transformEntry k (.vDict m) = .vDict (m.map fun p => (p.1, dictValueRule p.2)))
    ∧ (∀ m : List (String × Variant),
        ((m.map fun p => (p.1, dictValueRule p.2)).map Prod.fst) = m.map Prod.fst)
    ∧ (∀ n : Int, dictValueRule (.vInt n) = .vInt (internal_helper "add" n))
    ∧ (∀ s : String, dictValueRule (.vStr s) = .vStr (another_internal_helper s))
    ∧ (∀ q : ℚ, dictValueRule (.vFloat q) = .vFloat q)
    ∧ (∀ t : String, dictValueRule (.vOther t) = .vOther t)
    ∧ (∀ xs : List Variant, dictValueRule (.vList xs) = .vList xs)
    ∧ (∀ m : List (String × Variant), dictValueRule (.vDict m) = .vDict m)
    ∧ transformEntry "nestedDict"
        (.vDict [("innerInt", .vInt 5), ("innerText", .vStr "SUCCESS CASE"),
                 ("ignored", .vFloat (31415/10000))])
      = .vDict [("innerInt", .vInt 15), ("innerText", .vStr "Success case"),
                ("ignored", .vFloat (31415/10000))] := by
  refine ⟨fun k m => rfl, ?_, fun n => rfl, fun s => rfl, fun q => rfl, fun t => rfl,
    fun xs => rfl, fun m => rfl, by rfl⟩
  intro m
  rw [List.map_map]
  rfl

/-- C6: a top-level integer entry uses its own key string as the
operation selector, so keys "multiply" and "add" trigger the arithmetic
rules and any other key leaves the value unchanged; with the two concrete
entries from the spec, run through the full transformation. -/
theorem claim6_toplevel_int_selector :
    (∀ (k : String) (n : Int), transformEntry k (.vInt n) = .vInt (internal_helper k n))
    ∧ (∀ (k : String) (n : Int), k ≠ "multiply" → k ≠ "add" →
        transformEntry k (.vInt n) = .vInt n)
    ∧ ((VeryComplicatedClass.init [("multiply", .vInt 12)]).process_config).internal_state
        = [("multiply", .vInt 24)]
    ∧ ((VeryComplicatedClass.init [("add", .vInt (-20))]).process_config).internal_state
        = [("add", .vInt 30)] := by
  refine ⟨fun k n => rfl, ?_, by rfl, by rfl⟩
  intro k n h1 h2
  have he : transformEntry k (.vInt n) = .vInt (internal_helper k n) := rfl
  rw [he]
  unfold internal_helper
  rw [if_neg h1, if_neg h2]

theorem claim6_toplevel_int_selector_witness :
    transformEntry "textKey" (.vInt 99) = .vInt 99 :=
  claim6_toplevel_int_selector.2.1 "textKey" 99 (by decide) (by decide)

/-- C7 counterexample: the accumulator is created empty in `__init__`
(line 228) only; `process_config` does not re-create it, so a call's
result is not in general a function of that call's config alone: on a
transformer whose accumulator already holds a stale binding and whose
config is empty, the stale binding survives the call. -/
theorem claim7_counterexample :
    ¬ (∀ t : VeryComplicatedClass,
        (t.process_config).internal_state =
          ((VeryComplicatedClass.init t.config).process_config).internal_state) := by
  intro h
  have hc := h ⟨[], [("stale", .vInt 1)]⟩
  simp [VeryComplicatedClass.process_config, VeryComplicatedClass.init,
    insertAll] at hc

/-- C7 amended: the accumulator is created empty at construction, not at
the start of each call, and `process_config` never clears it; but since
the config is fixed at construction and every call deterministically
writes every config key, a repeated call changes nothing — each call's
result still contains exactly the entries derived from the config. -/
theorem claim7_accumulator_stable (cfg : List (String × Variant))
    (hnd : (cfg.map Prod.fst).Nodup) :
    ((VeryComplicatedClass.init cfg).process_config).process_config
      = (VeryComplicatedClass.init cfg).process_config := by
  have hmap : insertAll [] cfg = cfg.map transformPair := by
    have h := state_eq_map cfg hnd
    simpa [VeryComplicatedClass.process_config, VeryComplicatedClass.init] using h
  have hnd2 : ((cfg.map transformPair).map Prod.fst).Nodup := by
    rw [map_fst_map_transformPair]
    exact hnd
  show VeryComplicatedClass.mk cfg (insertAll (insertAll [] cfg) cfg)
      = VeryComplicatedClass.mk cfg (insertAll [] cfg)
  rw [hmap]
  rw [insertAll_of_mem cfg (cfg.map transformPair) hnd2
    fun p hp => List.mem_map.mpr ⟨p, hp, rfl⟩]

theorem claim7_accumulator_stable_witness :
    ((VeryComplicatedClass.init [("a", .vInt 1)]).process_config).process_config
      = (VeryComplicatedClass.init [("a", .vInt 1)]).process_config :=
  claim7_accumulator_stable [("a", .vInt 1)] (by decide)

/-- C8: entries are processed independently, so any permutation of the
input entries yields the same result as a mapping: lookups in the two
result accumulators agree at every key. -/
theorem claim8_order_independence (cfg cfg' : List (String × Variant))
    (hp : cfg.Perm cfg') (hnd : (cfg.map Prod.fst).Nodup) (k : String) :
    ((VeryComplicatedClass.init cfg).process_config).internal_state.lookup k
      = ((VeryComplicatedClass.init cfg').process_config).internal_state.lookup k := by
  have hnd' : (cfg'.map Prod.fst).Nodup := (hp.map Prod.fst).nodup_iff.mp hnd
  rw [state_eq_map cfg hnd, state_eq_map cfg' hnd']
  refine perm_lookup _ _ (hp.map transformPair) ?_ k
  rw [map_fst_map_transformPair]
  exact hnd

theorem claim8_order_independence_witness :
    ((VeryComplicatedClass.init
        [("a", .vInt 1), ("b", .vStr "zz")]).process_config).internal_state.lookup "b"
      = ((VeryComplicatedClass.init
        [("b", .vStr "zz"), ("a", .vInt 1)]).process_config).internal_state.lookup "b" :=
  claim8_order_independence [("a", .vInt 1), ("b", .vStr "zz")]
    [("b", .vStr "zz"), ("a", .vInt 1)]
    (List.Perm.swap ("b", Variant.vStr "zz") ("a", Variant.vInt 1) []) (by decide) "b"

/-- C9: the transformation is total — every shape has a handling path and
every entry of a config with distinct keys gets exactly one result — and
values of unrecognized shape (floats and opaque values at top level) are
passed through unchanged by the catch-all arm. -/
theorem claim9_total_catch_all :
    (∀ (k : String) (q : ℚ), transformEntry k (.vFloat q) = .vFloat q)
    ∧ (∀ (k t : String), transformEntry k (.vOther t) = .vOther t)
    ∧ (∀ (cfg : List (String × Variant)) (k : String) (v : Variant),
        (cfg.map Prod.fst).Nodup → (k, v) ∈ cfg →
        ((VeryComplicatedClass.init cfg).process_config).internal_state.lookup k
          = some (transformEntry k v)) := by
  refine ⟨fun k q => rfl, fun k t => rfl, ?_⟩
  intro cfg k v hnd hmem
  rw [state_eq_map cfg hnd]
  refine lookup_eq_some_of_mem _ k _ ?_ (List.mem_map.mpr ⟨(k, v), hmem, rfl⟩)
  rw [map_fst_map_transformPair]
  exact hnd

theorem claim9_total_catch_all_witness :
    ((VeryComplicatedClass.init
        [("s", .vOther "set 1 2 3")]).process_config).internal_state.lookup "s"
      = some (transformEntry "s" (.vOther "set 1 2 3")) :=
  claim9_total_catch_all.2.2 [("s", .vOther "set 1 2 3")] "s" (.vOther "set 1 2 3")
    (by decide) (by simp)

/-- C10: `process_config` writes only into the accumulator; the
configuration field (a pure value, nested lists and dicts included) is
exactly the one stored at construction. -/
theorem claim10_config_unchanged (t : VeryComplicatedClass) :
    (t.process_config).config = t.config := rfl
